import Mathlib

namespace CallEventHub

/-!
Shallow embedding of the telephony event forwarder (Go sources under
internal/config, internal/store, internal/forwarder, internal/consumer,
internal/nats and internal/http) together with theorems checking the
specification claims against it.

JSON payloads are modelled as an inductive value type whose objects are
association lists; Go map assignment becomes an update on the first
matching key, and the wall-clock timestamps written by time.Now are left
out of the model because no claim mentions them.
-/

/-- JSON values as handled by encoding/json: strings, numbers, booleans,
null, arrays and objects (objects as association lists). -/
inductive Json where
  | str (s : String) : Json
  | num (n : Int) : Json
  | bool (b : Bool) : Json
  | null : Json
  | arr (elems : List Json) : Json
  | obj (fields : List (String × Json)) : Json

/-- The ASCII lower-casing encoding/json applies when matching object
keys to struct field tags case-insensitively. -/
def lowerName (s : String) : String := ⟨s.data.map Char.toLower⟩

/-- Go map assignment m[key] = val on an association list: replace the
first binding of key, or append the binding when the key is absent. -/
def setKey : List (String × Json) → String → Json → List (String × Json)
  | [], key, val => [(key, val)]
  | kv :: rest, key, val =>
      if kv.1 = key then (key, val) :: rest
      else kv :: setKey rest key val

/-- Value of a string struct field with the given lower-case json tag, as
json.Unmarshal computes it: keys are matched case-insensitively, later
duplicate keys overwrite earlier ones, null leaves the field untouched,
and an unmatched key is skipped. -/
def fieldValue (fields : List (String × Json)) (tag : String) : String :=
  fields.foldl (fun acc kv =>
    if lowerName kv.1 = tag then
      match kv.2 with
      | Json.str s => s
      | _ => acc
    else acc) ""

/-- First binding of a key in an association list. -/
def lookupField : List (String × Json) → String → Option Json
  | [], _ => none
  | kv :: rest, key => if kv.1 = key then some kv.2 else lookupField rest key

/-- Lookup of a key in a JSON value, none unless the value is an object
holding the key. -/
def lookupKey (j : Json) (key : String) : Option Json :=
  match j with
  | Json.obj fields => lookupField fields key
  | _ => none

/-! ## internal/config/config.go -/

/-- ServerConfig from internal/config/config.go. -/
structure ServerConfig where
  port : Int
  readTimeout : Int
  writeTimeout : Int
deriving DecidableEq

/-- NATSConfig from internal/config/config.go. -/
structure NATSConfig where
  url : String
  streamName : String
  subjectPattern : String
  ackWait : Int
  maxDeliveries : Int
deriving DecidableEq

/-- Route from internal/config/config.go: a domain with its endpoints. -/
structure Route where
  domain : String
  endpoints : List String
deriving DecidableEq

/-- Config from internal/config/config.go. -/
structure Config where
  server : ServerConfig
  nats : NATSConfig
  routes : List Route
deriving DecidableEq

/-- Config.Validate: the first failing check wins; some errorMessage is
returned on invalid configuration, none on success. -/
def Validate (c : Config) : Option String :=
  if c.server.port ≤ 0 then some "server port must be positive"
  else if c.nats.url = "" then some "nats url is required"
  else if c.nats.streamName = "" then some "nats stream_name is required"
  else if c.nats.subjectPattern = "" then some "nats subject_pattern is required"
  else if c.nats.ackWait ≤ 0 then some "nats ack_wait_seconds must be positive"
  else if c.nats.maxDeliveries ≤ 0 then some "nats max_deliveries must be positive"
  else if c.nats.ackWait ≤ 3 then
    some ("nats ack_wait_seconds (" ++ toString c.nats.ackWait ++ ") must be greater than backend timeout (3 seconds)")
  else none

/-- Config.GetEndpoints: endpoints of the first route whose domain matches,
nil (empty) otherwise. -/
def GetEndpoints (c : Config) (domain : String) : List String :=
  match c.routes.find? (fun r => r.domain = domain) with
  | some r => r.endpoints
  | none => []

/-! ## internal/store/store.go -/

/-- ForwardedEvent from internal/store/store.go (the forwarded_at
timestamp, taken from time.Now, is left out of the model). -/
structure ForwardedEvent where
  event : Json
  domain : String
  callID : String
  deliveryAttempt : Int
  endpoints : List String

/-- FailedEvent from internal/store/store.go (the failed_at timestamp,
taken from time.Now, is left out of the model). -/
structure FailedEvent where
  event : Json
  domain : String
  callID : String
  deliveryAttempt : Int
  maxDeliveries : Int
  endpoints : List String
  errorMessages : List String
  willRetry : Bool

/-- The ForwardedEvent record built inside Store.AddEvent. -/
def mkForwardedEvent (event : Json) (domain callID : String)
    (deliveryAttempt : Int) (endpoints : List String) : ForwardedEvent :=
  { event := event, domain := domain, callID := callID,
    deliveryAttempt := deliveryAttempt, endpoints := endpoints }

/-- The FailedEvent record built inside Store.AddFailedEvent, with
WillRetry set to deliveryAttempt < maxDeliveries. -/
def mkFailedEvent (event : Json) (domain callID : String)
    (deliveryAttempt maxDeliveries : Int)
    (endpoints errorMessages : List String) : FailedEvent :=
  { event := event, domain := domain, callID := callID,
    deliveryAttempt := deliveryAttempt, maxDeliveries := maxDeliveries,
    endpoints := endpoints, errorMessages := errorMessages,
    willRetry := decide (deliveryAttempt < maxDeliveries) }

/-- Store from internal/store/store.go: two in-memory lists bounded by
maxSize (0 means unlimited). -/
structure Store where
  successfulEvents : List ForwardedEvent
  failedEvents : List FailedEvent
  maxSize : Nat

/-- NewStore. -/
def NewStore (maxSize : Nat) : Store :=
  { successfulEvents := [], failedEvents := [], maxSize := maxSize }

/-- The append-then-trim performed by Store.AddEvent and
Store.AddFailedEvent: append the new entry, and when maxSize is set and
exceeded drop the oldest entries from the front. -/
def boundedAppend (l : List α) (x : α) (maxSize : Nat) : List α :=
  if 0 < maxSize ∧ maxSize < (l ++ [x]).length then
    (l ++ [x]).drop ((l ++ [x]).length - maxSize)
  else l ++ [x]

/-- Store.AddEvent. -/
def Store.AddEvent (s : Store) (event : Json) (domain callID : String)
    (deliveryAttempt : Int) (endpoints : List String) : Store :=
  { s with successfulEvents := boundedAppend s.successfulEvents (mkForwardedEvent event domain callID deliveryAttempt endpoints) s.maxSize }

/-- Store.AddFailedEvent. -/
def Store.AddFailedEvent (s : Store) (event : Json) (domain callID : String)
    (deliveryAttempt maxDeliveries : Int)
    (endpoints errorMessages : List String) : Store :=
  { s with failedEvents := boundedAppend s.failedEvents (mkFailedEvent event domain callID deliveryAttempt maxDeliveries endpoints errorMessages) s.maxSize }

/-- One insertion into the outcome store, as requested by the forwarder. -/
inductive StoreOp where
  | addEvent (event : Json) (domain callID : String)
      (deliveryAttempt : Int) (endpoints : List String) : StoreOp
  | addFailedEvent (event : Json) (domain callID : String)
      (deliveryAttempt maxDeliveries : Int)
      (endpoints errorMessages : List String) : StoreOp

/-- Dispatch one StoreOp to the matching Store method. -/
def Store.applyOp (s : Store) : StoreOp → Store
  | StoreOp.addEvent e d c a eps => s.AddEvent e d c a eps
  | StoreOp.addFailedEvent e d c a m eps errs => s.AddFailedEvent e d c a m eps errs

/-- A sequence of insertions applied in order. -/
def Store.applyOps (s : Store) (ops : List StoreOp) : Store :=
  ops.foldl Store.applyOp s

/-- The ForwardedEvent records inserted by a sequence of ops, in order. -/
def insertedForwarded (ops : List StoreOp) : List ForwardedEvent :=
  ops.filterMap (fun op =>
    match op with
    | StoreOp.addEvent e d c a eps => some (mkForwardedEvent e d c a eps)
    | _ => none)

/-- The FailedEvent records inserted by a sequence of ops, in order. -/
def insertedFailed (ops : List StoreOp) : List FailedEvent :=
  ops.filterMap (fun op =>
    match op with
    | StoreOp.addFailedEvent e d c a m eps errs =>
        some (mkFailedEvent e d c a m eps errs)
    | _ => none)

/-- The last n entries of a list, in order. -/
def lastN (l : List α) (n : Nat) : List α :=
  l.drop (l.length - n)

/-- A recorded failure is consistent when its will_retry flag equals the
comparison of its own delivery attempt against its max deliveries. -/
def willRetryConsistent (fe : FailedEvent) : Bool :=
  fe.willRetry == decide (fe.deliveryAttempt < fe.maxDeliveries)

/-! ## internal/nats/consumer.go -/

/-- Deliver policies used by the service. -/
inductive DeliverPolicy where
  | all : DeliverPolicy
  | new : DeliverPolicy
deriving DecidableEq

/-- Ack policies used by the service. -/
inductive AckPolicy where
  | none : AckPolicy
  | explicit : AckPolicy
deriving DecidableEq

/-- The subset of nats.ConsumerConfig the service sets. -/
structure ConsumerConfig where
  name : String
  durable : String
  deliverPolicy : DeliverPolicy
  ackPolicy : AckPolicy
  ackWaitSeconds : Int
  maxDeliver : Int
deriving DecidableEq

/-- The consumerConfig literal built inside NewConsumer: durable,
explicit-ack, deliver-new, with the configured ack wait and max
deliveries. -/
def consumerConfigFor (consumerName : String) (ackWait maxDeliveries : Int) : ConsumerConfig :=
  { name := consumerName, durable := consumerName,
    deliverPolicy := DeliverPolicy.new, ackPolicy := AckPolicy.explicit,
    ackWaitSeconds := ackWait, maxDeliver := maxDeliveries }

/-- Effect of NewConsumer on the stream consumer registry: any existing
consumer under the same name is deleted first (so a divergent durable can
never be kept), then AddConsumer registers the intended configuration. -/
def NewConsumer (registry : List (String × ConsumerConfig)) (consumerName : String)
    (ackWait maxDeliveries : Int) : List (String × ConsumerConfig) :=
  (registry.filter (fun p => p.1 != consumerName))
    ++ [(consumerName, consumerConfigFor consumerName ackWait maxDeliveries)]

/-! ## internal/forwarder/forwarder.go -/

/-- The observed behavior of one endpoint for one dispatch: a transport
error (connection failure or the 3-second deadline expiring inside
http.Client.Do) or an HTTP response status code. -/
inductive EndpointResult where
  | transportError (msg : String) : EndpointResult
  | status (code : Int) : EndpointResult

/-- forwardToEndpoint succeeds exactly on a response status in [200, 300);
transport errors and deadline misses fail. -/
def endpointOk : EndpointResult → Bool
  | EndpointResult.status code => decide (200 ≤ code) && decide (code < 300)
  | EndpointResult.transportError _ => false

/-- The failure message attached to a failing endpoint. -/
def errorMessage (url : String) : EndpointResult → String
  | EndpointResult.transportError msg => "endpoint " ++ url ++ " failed: " ++ msg
  | EndpointResult.status code =>
      "endpoint " ++ url ++ " failed: non-2xx response: " ++ toString code

/-- addDeliveryAttemptToPayload: parse the payload as a map to preserve
all fields, set delivery_attempt, re-serialize; fails when the payload is
not a JSON object. -/
def addDeliveryAttemptToPayload (eventData : Json) (deliveryAttempt : Int) : Option Json :=
  match eventData with
  | Json.obj fields =>
      some (Json.obj (setKey fields "delivery_attempt" (Json.num deliveryAttempt)))
  | _ => none

/-- The call_id extracted for logging and the X-Call-ID header. -/
def extractCallID (eventData : Json) : String :=
  match eventData with
  | Json.obj fields => fieldValue fields "call_id"
  | _ => ""

/-- One HTTP POST issued by forwardToEndpoint. -/
structure HttpRequest where
  url : String
  body : Json
  contentType : String
  xCallID : String
  xDomain : String

/-- The request forwardToEndpoint builds for one endpoint. -/
def mkRequest (url : String) (body : Json) (callID domain : String) : HttpRequest :=
  { url := url, body := body, contentType := "application/json",
    xCallID := callID, xDomain := domain }

/-- Everything observable about one ForwardEvent call: the requests it
issued, its error return (none on success), and the outcome-store
insertions it performed. -/
structure ForwardOutcome where
  requests : List HttpRequest
  result : Option String
  storeOps : List StoreOp

/-- ForwardEvent: look up the endpoints of the domain, fail with the
no-route error when there are none, otherwise enrich the payload with
delivery_attempt (falling back to the untouched payload when enrichment
fails), POST to every endpoint, and collect the failures; on any failure
return an error and record a FailedEvent, otherwise return nil and record
a ForwardedEvent. -/
def ForwardEvent (cfg : Config) (eventData : Json) (domain : String)
    (deliveryAttempt : Int) (respond : String → EndpointResult) : ForwardOutcome :=
  let endpoints := GetEndpoints cfg domain
  if endpoints = [] then
    { requests := [], result := some ("no endpoints configured for domain: " ++ domain), storeOps := [] }
  else
    let callID := extractCallID eventData
    let eventPayload := (addDeliveryAttemptToPayload eventData deliveryAttempt).getD eventData
    let requests := endpoints.map (fun url => mkRequest url eventPayload callID domain)
    let failed := endpoints.filter (fun url => !(endpointOk (respond url)))
    if failed = [] then
      { requests := requests, result := none, storeOps := [StoreOp.addEvent eventData domain callID deliveryAttempt endpoints] }
    else
      { requests := requests, result := some ("failed to forward to " ++ toString failed.length ++ " endpoint(s)"), storeOps := [StoreOp.addFailedEvent eventData domain callID deliveryAttempt cfg.nats.maxDeliveries endpoints (failed.map (fun url => errorMessage url (respond url)))] }

/-! ## internal/consumer/consumer.go -/

/-- What processMessage does with the message at the end. -/
inductive ConsumerAction where
  | ack : ConsumerAction
  | nak : ConsumerAction
  | noAck : ConsumerAction
deriving DecidableEq

/-- Result of processMessage: the final action and, when the forwarder
ran, its observable outcome. -/
structure ProcessResult where
  action : ConsumerAction
  outcome : Option ForwardOutcome

/-- The json tags of the struct processMessage decodes the payload into. -/
def consumerTags : List String := ["call_id", "domain", "state", "status"]

/-- Whether json.Unmarshal into a struct of string fields with the given
tags succeeds on the object: every key matching a tag (case-insensitively)
must carry a string or null. -/
def structDecodable (tags : List String) (fields : List (String × Json)) : Bool :=
  fields.all (fun kv =>
    if tags.contains (lowerName kv.1) then
      match kv.2 with
      | Json.str _ => true
      | Json.null => true
      | _ => false
    else true)

/-- Whether a ProcessResult recorded a failure outcome in the store. -/
def recordsFailure (pr : ProcessResult) : Bool :=
  match pr.outcome with
  | some fo => fo.storeOps.any (fun op =>
      match op with
      | StoreOp.addFailedEvent _ _ _ _ _ _ _ => true
      | _ => false)
  | none => false

/-- processMessage: parse the payload, Nak on unparseable JSON or missing
domain, otherwise forward; on forwarder error do not acknowledge (leave
redelivery to the stream), on success Ack. -/
def processMessage (msgData : Json) (numDelivered : Int) (cfg : Config)
    (respond : String → EndpointResult) : ProcessResult :=
  match msgData with
  | Json.obj fields =>
      if structDecodable consumerTags fields then
        if fieldValue fields "domain" = "" then
          { action := ConsumerAction.nak, outcome := none }
        else
          let fo := ForwardEvent cfg (Json.obj fields) (fieldValue fields "domain") numDelivered respond
          match fo.result with
          | some _ => { action := ConsumerAction.noAck, outcome := some fo }
          | none => { action := ConsumerAction.ack, outcome := some fo }
      else { action := ConsumerAction.nak, outcome := none }
  | Json.null => { action := ConsumerAction.nak, outcome := none }
  | _ => { action := ConsumerAction.nak, outcome := none }

/-- A concrete configuration used to instantiate theorems: one route for
tenant t.example with a single endpoint. -/
def sampleConfig : Config :=
  { server := { port := 8080, readTimeout := 10, writeTimeout := 10 },
    nats := { url := "nats://127.0.0.1:4222", streamName := "CALL_EVENTS",
              subjectPattern := "call.signal.*", ackWait := 10, maxDeliveries := 3 },
    routes := [{ domain := "t.example", endpoints := ["http://a.example/hook"] }] }

/-! ## internal/http/handler.go -/

/-- The Event struct the ingress handler decodes POST bodies into: the 19
string fields of the telephony signaling event, in declaration order. -/
structure Event where
  actualHotline : String
  billsec : String
  callID : String
  crmContactID : String
  direction : String
  domain : String
  duration : String
  fromNumber : String
  hotline : String
  network : String
  provider : String
  receiveDest : String
  sipCallID : String
  sipHangupDisposition : String
  state : String
  status : String
  timeEnded : String
  timeStarted : String
  toNumber : String
deriving DecidableEq

/-- The json tags of the Event struct, in declaration order. -/
def eventTags : List String :=
  ["actual_hotline", "billsec", "call_id", "crm_contact_id", "direction",
   "domain", "duration", "from_number", "hotline", "network", "provider",
   "receive_dest", "sip_call_id", "sip_hangup_disposition", "state",
   "status", "time_ended", "time_started", "to_number"]

/-- The zero Event. -/
def emptyEvent : Event :=
  { actualHotline := "", billsec := "", callID := "", crmContactID := "",
    direction := "", domain := "", duration := "", fromNumber := "",
    hotline := "", network := "", provider := "", receiveDest := "",
    sipCallID := "", sipHangupDisposition := "", state := "", status := "",
    timeEnded := "", timeStarted := "", toNumber := "" }

/-- json.Decoder.Decode of the request body into the Event struct:
objects decode field by field (keys matched case-insensitively, unmatched
keys dropped), a JSON null leaves the zero struct, anything else is a
decode error. -/
def decodeEvent (j : Json) : Option Event :=
  match j with
  | Json.obj fields =>
      if structDecodable eventTags fields then
        some { actualHotline := fieldValue fields "actual_hotline",
               billsec := fieldValue fields "billsec",
               callID := fieldValue fields "call_id",
               crmContactID := fieldValue fields "crm_contact_id",
               direction := fieldValue fields "direction",
               domain := fieldValue fields "domain",
               duration := fieldValue fields "duration",
               fromNumber := fieldValue fields "from_number",
               hotline := fieldValue fields "hotline",
               network := fieldValue fields "network",
               provider := fieldValue fields "provider",
               receiveDest := fieldValue fields "receive_dest",
               sipCallID := fieldValue fields "sip_call_id",
               sipHangupDisposition := fieldValue fields "sip_hangup_disposition",
               state := fieldValue fields "state",
               status := fieldValue fields "status",
               timeEnded := fieldValue fields "time_ended",
               timeStarted := fieldValue fields "time_started",
               toNumber := fieldValue fields "to_number" }
      else none
  | Json.null => some emptyEvent
  | _ => none

/-- json.Marshal of the Event struct: every field is emitted under its
lower-case tag, in declaration order. -/
def marshalEvent (e : Event) : List (String × Json) :=
  [("actual_hotline", Json.str e.actualHotline),
   ("billsec", Json.str e.billsec),
   ("call_id", Json.str e.callID),
   ("crm_contact_id", Json.str e.crmContactID),
   ("direction", Json.str e.direction),
   ("domain", Json.str e.domain),
   ("duration", Json.str e.duration),
   ("from_number", Json.str e.fromNumber),
   ("hotline", Json.str e.hotline),
   ("network", Json.str e.network),
   ("provider", Json.str e.provider),
   ("receive_dest", Json.str e.receiveDest),
   ("sip_call_id", Json.str e.sipCallID),
   ("sip_hangup_disposition", Json.str e.sipHangupDisposition),
   ("state", Json.str e.state),
   ("status", Json.str e.status),
   ("time_ended", Json.str e.timeEnded),
   ("time_started", Json.str e.timeStarted),
   ("to_number", Json.str e.toNumber)]

/-- An HTTP response of the ingress handler. -/
structure HttpResponse where
  status : Int
  body : String
deriving DecidableEq

/-- The success body written by HandleEvents. -/
def acceptedBody : String := "\x7b\"status\":\"accepted\"\x7d"

/-- HandleEvents on POST /events: decode the body into the Event struct
(Invalid JSON payload on failure), require a non-empty domain, re-marshal
and publish; a failed publish is a 500, success is a 202 with the accepted
body. The second component is the payload accepted by the stream. -/
def HandleEvents (method : String) (body : Option Json) (publishOk : Bool) :
    HttpResponse × Option (List (String × Json)) :=
  if method ≠ "POST" then ({ status := 405, body := "Method not allowed" }, none)
  else
    match body with
    | none => ({ status := 400, body := "Invalid JSON payload" }, none)
    | some j =>
        match decodeEvent j with
        | none => ({ status := 400, body := "Invalid JSON payload" }, none)
        | some e =>
            if e.domain = "" then ({ status := 400, body := "domain is required" }, none)
            else if publishOk then ({ status := 202, body := acceptedBody }, some (marshalEvent e))
            else ({ status := 500, body := "Internal server error" }, none)

/-! ## Theorems -/

theorem Store.AddEvent_successfulEvents (s : Store) (e : Json) (d c : String)
    (a : Int) (eps : List String) :
    (s.AddEvent e d c a eps).successfulEvents
      = boundedAppend s.successfulEvents (mkForwardedEvent e d c a eps) s.maxSize := rfl

theorem Store.AddEvent_failedEvents (s : Store) (e : Json) (d c : String)
    (a : Int) (eps : List String) :
    (s.AddEvent e d c a eps).failedEvents = s.failedEvents := rfl

theorem Store.AddEvent_maxSize (s : Store) (e : Json) (d c : String)
    (a : Int) (eps : List String) :
    (s.AddEvent e d c a eps).maxSize = s.maxSize := rfl

theorem Store.AddFailedEvent_failedEvents (s : Store) (e : Json) (d c : String)
    (a m : Int) (eps errs : List String) :
    (s.AddFailedEvent e d c a m eps errs).failedEvents
      = boundedAppend s.failedEvents (mkFailedEvent e d c a m eps errs) s.maxSize := rfl

theorem Store.AddFailedEvent_successfulEvents (s : Store) (e : Json) (d c : String)
    (a m : Int) (eps errs : List String) :
    (s.AddFailedEvent e d c a m eps errs).successfulEvents = s.successfulEvents := rfl

theorem Store.AddFailedEvent_maxSize (s : Store) (e : Json) (d c : String)
    (a m : Int) (eps errs : List String) :
    (s.AddFailedEvent e d c a m eps errs).maxSize = s.maxSize := rfl

theorem lastN_of_length_le (l : List α) (n : Nat) (h : l.length ≤ n) :
    lastN l n = l := by
  unfold lastN
  have : l.length - n = 0 := by omega
  rw [this, List.drop_zero]

theorem lastN_length_le (l : List α) (n : Nat) : (lastN l n).length ≤ n := by
  unfold lastN
  rw [List.length_drop]
  omega

theorem boundedAppend_lastN (all l : List α) (x : α) (m : Nat)
    (hm : 0 < m) (hl : l = lastN all m) :
    boundedAppend l x m = lastN (all ++ [x]) m := by
  subst hl
  have key : lastN all m ++ [x] = (all ++ [x]).drop (all.length - m) := by
    rw [List.drop_append_of_le_length (Nat.sub_le _ _)]
    rfl
  unfold boundedAppend
  rw [key]
  simp only [List.length_drop, List.length_append, List.length_singleton, lastN]
  by_cases hLm : m ≤ all.length
  · rw [if_pos ⟨hm, by omega⟩, List.drop_drop]
    congr 1
    omega
  · rw [if_neg (by omega)]
    congr 1
    omega

theorem applyOps_lastN (ops : List StoreOp) :
    ∀ (s : Store) (allS : List ForwardedEvent) (allF : List FailedEvent),
      0 < s.maxSize →
      s.successfulEvents = lastN allS s.maxSize →
      s.failedEvents = lastN allF s.maxSize →
      (s.applyOps ops).successfulEvents = lastN (allS ++ insertedForwarded ops) s.maxSize
      ∧ (s.applyOps ops).failedEvents = lastN (allF ++ insertedFailed ops) s.maxSize
      ∧ (s.applyOps ops).maxSize = s.maxSize := by
  induction ops with
  | nil =>
      intro s allS allF hm hs hf
      simp [Store.applyOps, insertedForwarded, insertedFailed, hs, hf]
  | cons op ops ih =>
      intro s allS allF hm hs hf
      cases op with
      | addEvent e d c a eps =>
          have hstep : (s.AddEvent e d c a eps).successfulEvents =
              lastN (allS ++ [mkForwardedEvent e d c a eps]) s.maxSize := by
            rw [Store.AddEvent_successfulEvents]
            exact boundedAppend_lastN allS s.successfulEvents _ s.maxSize hm hs
          have h := ih (s.AddEvent e d c a eps)
            (allS ++ [mkForwardedEvent e d c a eps]) allF
            (by rw [Store.AddEvent_maxSize]; exact hm)
            (by rw [Store.AddEvent_maxSize]; exact hstep)
            (by rw [Store.AddEvent_maxSize, Store.AddEvent_failedEvents]; exact hf)
          rw [Store.AddEvent_maxSize] at h
          simpa [Store.applyOps, Store.applyOp, insertedForwarded, insertedFailed,
            List.append_assoc] using h
      | addFailedEvent e d c a m eps errs =>
          have hstep : (s.AddFailedEvent e d c a m eps errs).failedEvents =
              lastN (allF ++ [mkFailedEvent e d c a m eps errs]) s.maxSize := by
            rw [Store.AddFailedEvent_failedEvents]
            exact boundedAppend_lastN allF s.failedEvents _ s.maxSize hm hf
          have h := ih (s.AddFailedEvent e d c a m eps errs)
            allS (allF ++ [mkFailedEvent e d c a m eps errs])
            (by rw [Store.AddFailedEvent_maxSize]; exact hm)
            (by rw [Store.AddFailedEvent_maxSize, Store.AddFailedEvent_successfulEvents]; exact hs)
            (by rw [Store.AddFailedEvent_maxSize]; exact hstep)
          rw [Store.AddFailedEvent_maxSize] at h
          simpa [Store.applyOps, Store.applyOp, insertedForwarded, insertedFailed,
            List.append_assoc] using h

/-- C9: with positive capacity n + 1, after any sequence of insertions each
list of the store holds exactly the n + 1 most recent insertions of its
kind, unmodified and in insertion order, so each list length stays within
the bound. -/
theorem store_bounded_fifo (n : Nat) (ops : List StoreOp) :
    ((NewStore (n + 1)).applyOps ops).successfulEvents
        = lastN (insertedForwarded ops) (n + 1)
    ∧ ((NewStore (n + 1)).applyOps ops).failedEvents
        = lastN (insertedFailed ops) (n + 1)
    ∧ ((NewStore (n + 1)).applyOps ops).successfulEvents.length ≤ n + 1
    ∧ ((NewStore (n + 1)).applyOps ops).failedEvents.length ≤ n + 1 := by
  have h := applyOps_lastN ops (NewStore (n + 1)) [] []
    (by simp [NewStore]) (by simp [NewStore, lastN]) (by simp [NewStore, lastN])
  rcases h with ⟨hs, hf, -⟩
  rw [List.nil_append] at hs hf
  have hmax : (NewStore (n + 1)).maxSize = n + 1 := rfl
  rw [hmax] at hs hf
  refine ⟨hs, hf, ?_, ?_⟩
  · rw [hs]; exact lastN_length_le _ _
  · rw [hf]; exact lastN_length_le _ _

theorem all_boundedAppend {p : α → Bool} (l : List α) (x : α) (m : Nat)
    (hl : l.all p = true) (hx : p x = true) :
    (boundedAppend l x m).all p = true := by
  unfold boundedAppend
  have happ : (l ++ [x]).all p = true := by
    rw [List.all_append, hl]
    simp [hx]
  split
  · rw [List.all_eq_true] at happ ⊢
    exact fun a ha => happ a (List.mem_of_mem_drop ha)
  · exact happ

theorem applyOps_willRetry (ops : List StoreOp) :
    ∀ (s : Store), s.failedEvents.all willRetryConsistent = true →
      (s.applyOps ops).failedEvents.all willRetryConsistent = true := by
  induction ops with
  | nil => intro s hs; simpa [Store.applyOps] using hs
  | cons op ops ih =>
      intro s hs
      show ((s.applyOp op).applyOps ops).failedEvents.all willRetryConsistent = true
      cases op with
      | addEvent e d c a eps =>
          refine ih _ ?_
          rw [show (s.applyOp (StoreOp.addEvent e d c a eps)) = s.AddEvent e d c a eps from rfl,
            Store.AddEvent_failedEvents]
          exact hs
      | addFailedEvent e d c a m eps errs =>
          refine ih _ ?_
          rw [show (s.applyOp (StoreOp.addFailedEvent e d c a m eps errs))
              = s.AddFailedEvent e d c a m eps errs from rfl,
            Store.AddFailedEvent_failedEvents]
          exact all_boundedAppend s.failedEvents (mkFailedEvent e d c a m eps errs)
            s.maxSize hs (by simp [willRetryConsistent, mkFailedEvent])

/-- C6: for every failure outcome sitting in the store after any sequence
of insertions, its will_retry field is exactly the comparison
delivery attempt < max deliveries of that same record. -/
theorem failed_will_retry_exact (maxSize : Nat) (ops : List StoreOp) :
    ((NewStore maxSize).applyOps ops).failedEvents.all willRetryConsistent = true :=
  applyOps_willRetry ops (NewStore maxSize) (by simp [NewStore])

/-- C7: Config.Validate accepts a configuration exactly when the port is
positive, the nats url, stream name and subject pattern are non-empty,
ack_wait_seconds strictly exceeds the 3-second backend timeout, and
max_deliveries is at least 1; in particular every configuration with
ack_wait_seconds at most 3 is refused. -/
theorem validate_ok_iff (c : Config) :
    Validate c = none ↔
      (0 < c.server.port ∧ c.nats.url ≠ "" ∧ c.nats.streamName ≠ "" ∧
       c.nats.subjectPattern ≠ "" ∧ 3 < c.nats.ackWait ∧ 1 ≤ c.nats.maxDeliveries) := by
  unfold Validate
  split_ifs with h1 h2 h3 h4 h5 h6 h7 <;>
    simp_all <;> omega

theorem lookup_filter_append {β : Type} [DecidableEq β]
    (l : List (String × β)) (n : String) (cfg : β) :
    ((l.filter (fun p => p.1 != n)) ++ [(n, cfg)]).lookup n = some cfg := by
  induction l with
  | nil => simp [List.lookup]
  | cons p l ih =>
      obtain ⟨a, b⟩ := p
      by_cases h : a = n
      · simpa [h] using ih
      · have h2 : (n == a) = false := beq_eq_false_iff_ne.mpr (fun hh => h hh.symm)
        simpa [List.filter_cons, h, List.lookup, h2] using ih

/-- C5: NewConsumer registers, under the consumer name, a durable
explicit-ack consumer with deliver policy new, the configured ack wait and
the configured max deliveries, whatever consumer of that name existed
before (it is deleted and recreated); afterwards no consumer under that
name carries any other configuration. -/
theorem new_consumer_intended_config (registry : List (String × ConsumerConfig))
    (consumerName : String) (ackWait maxDeliveries : Int) :
    (NewConsumer registry consumerName ackWait maxDeliveries).lookup consumerName
        = some (consumerConfigFor consumerName ackWait maxDeliveries)
    ∧ (consumerConfigFor consumerName ackWait maxDeliveries).durable = consumerName
    ∧ (consumerConfigFor consumerName ackWait maxDeliveries).ackPolicy = AckPolicy.explicit
    ∧ (consumerConfigFor consumerName ackWait maxDeliveries).deliverPolicy = DeliverPolicy.new
    ∧ (consumerConfigFor consumerName ackWait maxDeliveries).ackWaitSeconds = ackWait
    ∧ (consumerConfigFor consumerName ackWait maxDeliveries).maxDeliver = maxDeliveries
    ∧ (NewConsumer registry consumerName ackWait maxDeliveries).all
        (fun p => p.1 != consumerName
          || p.2 == consumerConfigFor consumerName ackWait maxDeliveries) = true := by
  refine ⟨lookup_filter_append registry consumerName _, rfl, rfl, rfl, rfl, rfl, ?_⟩
  unfold NewConsumer
  rw [List.all_append]
  have h1 : (registry.filter (fun p => p.1 != consumerName)).all
      (fun p => p.1 != consumerName
        || p.2 == consumerConfigFor consumerName ackWait maxDeliveries) = true := by
    rw [List.all_eq_true]
    intro p hp
    rw [List.mem_filter] at hp
    simp [hp.2]
  rw [h1]
  simp

theorem lookupField_setKey (fields : List (String × Json)) (key k : String) (v : Json) :
    lookupField (setKey fields key v) k
      = if k = key then some v else lookupField fields k := by
  induction fields with
  | nil =>
      by_cases h : k = key
      · simp [setKey, lookupField, h]
      · simp [setKey, lookupField, h, Ne.symm h]
  | cons kv rest ih =>
      obtain ⟨a, b⟩ := kv
      by_cases h1 : a = key
      · subst h1
        by_cases h2 : k = a
        · simp [setKey, lookupField, h2]
        · simp [setKey, lookupField, h2, Ne.symm h2]
      · by_cases h2 : k = a
        · subst h2
          simp [setKey, lookupField, h1]
        · simp [setKey, lookupField, h1, h2, Ne.symm h2, ih]

theorem ForwardEvent_requests (cfg : Config) (fields : List (String × Json))
    (domain : String) (k : Int) (respond : String → EndpointResult) :
    (ForwardEvent cfg (Json.obj fields) domain k respond).requests
      = (GetEndpoints cfg domain).map (fun url =>
          mkRequest url (Json.obj (setKey fields "delivery_attempt" (Json.num k)))
            (fieldValue fields "call_id") domain) := by
  simp only [ForwardEvent]
  by_cases hend : GetEndpoints cfg domain = []
  · simp [hend]
  · rw [if_neg hend]
    split <;> simp [addDeliveryAttemptToPayload, extractCallID]

/-- C1 is refuted on the code: for a delivered message of tenant t.example
with attempt 1 and one configured endpoint, the body of the one issued
request holds no using_forwarder field at all (the code only adds
delivery_attempt). -/
theorem forwarded_body_lacks_using_forwarder :
    ((ForwardEvent sampleConfig (Json.obj [("call_id", Json.str "c1"), ("domain", Json.str "t.example")]) "t.example" 1 (fun _ => EndpointResult.status 200)).requests.map (fun req => lookupKey req.body "using_forwarder")) = [none] := rfl

/-- C1 amended: one POST per configured endpoint, whose body is the
original JSON object changed exactly by setting delivery_attempt to the
attempt count (every other key, a hypothetical using_forwarder included,
keeps its original binding), with Content-Type application/json and the
X-Call-ID and X-Domain headers carrying the call id and the tenant. -/
theorem forwarded_request_contract (cfg : Config) (fields : List (String × Json))
    (domain : String) (deliveryAttempt : Int) (respond : String → EndpointResult) :
    (ForwardEvent cfg (Json.obj fields) domain deliveryAttempt respond).requests.map HttpRequest.url
        = GetEndpoints cfg domain
    ∧ ∀ req ∈ (ForwardEvent cfg (Json.obj fields) domain deliveryAttempt respond).requests,
        req.contentType = "application/json"
        ∧ req.xCallID = fieldValue fields "call_id"
        ∧ req.xDomain = domain
        ∧ lookupKey req.body "delivery_attempt" = some (Json.num deliveryAttempt)
        ∧ ∀ key, key ≠ "delivery_attempt" → lookupKey req.body key = lookupField fields key := by
  constructor
  · rw [ForwardEvent_requests]
    have hcomp : ∀ l : List String,
        (l.map (fun url =>
          mkRequest url (Json.obj (setKey fields "delivery_attempt" (Json.num deliveryAttempt)))
            (fieldValue fields "call_id") domain)).map HttpRequest.url = l := by
      intro l
      induction l with
      | nil => rfl
      | cons x xs ih =>
          simp only [List.map_cons]
          rw [ih]
          rfl
    exact hcomp _
  · intro req hreq
    rw [ForwardEvent_requests, List.mem_map] at hreq
    obtain ⟨url, hurl, rfl⟩ := hreq
    refine ⟨rfl, rfl, rfl, ?_, ?_⟩
    · show lookupField (setKey fields "delivery_attempt" (Json.num deliveryAttempt)) "delivery_attempt" = _
      rw [lookupField_setKey]
      simp
    · intro key hk
      show lookupField (setKey fields "delivery_attempt" (Json.num deliveryAttempt)) key = _
      rw [lookupField_setKey, if_neg hk]

theorem forwarded_request_contract_witness :
    (mkRequest "http://a.example/hook" (Json.obj [("call_id", Json.str "c1"), ("domain", Json.str "t.example"), ("delivery_attempt", Json.num 2)]) "c1" "t.example") ∈ (ForwardEvent sampleConfig (Json.obj [("call_id", Json.str "c1"), ("domain", Json.str "t.example")]) "t.example" 2 (fun _ => EndpointResult.status 200)).requests
    ∧ (mkRequest "http://a.example/hook" (Json.obj [("call_id", Json.str "c1"), ("domain", Json.str "t.example"), ("delivery_attempt", Json.num 2)]) "c1" "t.example").contentType = "application/json" := by
  have hmem : (mkRequest "http://a.example/hook" (Json.obj [("call_id", Json.str "c1"), ("domain", Json.str "t.example"), ("delivery_attempt", Json.num 2)]) "c1" "t.example") ∈ (ForwardEvent sampleConfig (Json.obj [("call_id", Json.str "c1"), ("domain", Json.str "t.example")]) "t.example" 2 (fun _ => EndpointResult.status 200)).requests := by
    rw [ForwardEvent_requests]
    exact List.mem_singleton.mpr rfl
  exact ⟨hmem, ((forwarded_request_contract sampleConfig
    [("call_id", Json.str "c1"), ("domain", Json.str "t.example")] "t.example" 2
    (fun _ => EndpointResult.status 200)).2 _ hmem).1⟩

theorem filter_not_nil_iff_all {p : α → Bool} {l : List α} :
    (l.filter (fun a => !(p a)) = []) ↔ l.all p = true := by
  rw [List.filter_eq_nil_iff, List.all_eq_true]
  constructor
  · intro h a ha
    have := h a ha
    simpa using this
  · intro h a ha
    simp [h a ha]

/-- C2: the consumer acknowledges a delivered message exactly when every
configured endpoint of its tenant answered with a 2xx status within the
deadline (timeouts and transport errors count as failures); on any
endpoint failure the message is left unacknowledged for stream redelivery
and a failure outcome is recorded in the store. -/
theorem ack_iff_all_endpoints_ok (fields : List (String × Json)) (cfg : Config)
    (numDelivered : Int) (respond : String → EndpointResult)
    (hdec : structDecodable consumerTags fields = true)
    (hdom : fieldValue fields "domain" ≠ "")
    (hend : GetEndpoints cfg (fieldValue fields "domain") ≠ []) :
    ((processMessage (Json.obj fields) numDelivered cfg respond).action = ConsumerAction.ack
      ↔ (GetEndpoints cfg (fieldValue fields "domain")).all
          (fun url => endpointOk (respond url)) = true)
    ∧ ((GetEndpoints cfg (fieldValue fields "domain")).all
          (fun url => endpointOk (respond url)) = false →
        (processMessage (Json.obj fields) numDelivered cfg respond).action = ConsumerAction.noAck
        ∧ recordsFailure (processMessage (Json.obj fields) numDelivered cfg respond) = true) := by
  by_cases hfail : (GetEndpoints cfg (fieldValue fields "domain")).filter
      (fun url => !(endpointOk (respond url))) = []
  · have hall := filter_not_nil_iff_all.mp hfail
    constructor
    · simp only [processMessage, ForwardEvent, hdec, if_true, hdom, if_neg hdom, hend,
        if_neg hend, hfail, if_pos hfail]
      simp [hall]
    · intro hcontra
      rw [hall] at hcontra
      cases hcontra
  · have hall : (GetEndpoints cfg (fieldValue fields "domain")).all
        (fun url => endpointOk (respond url)) = false := by
      cases h2 : (GetEndpoints cfg (fieldValue fields "domain")).all
          (fun url => endpointOk (respond url)) with
      | true => exact absurd (filter_not_nil_iff_all.mpr h2) hfail
      | false => rfl
    simp only [processMessage, ForwardEvent, hdec, if_true, hdom, if_neg hdom, hend,
      if_neg hend, hfail, if_neg hfail]
    refine ⟨by simp [hall], fun _ => ⟨rfl, ?_⟩⟩
    simp [recordsFailure]

theorem ack_iff_all_endpoints_ok_witness :
    (processMessage (Json.obj [("domain", Json.str "t.example")]) 1 sampleConfig
        (fun _ => EndpointResult.status 200)).action = ConsumerAction.ack :=
  (ack_iff_all_endpoints_ok [("domain", Json.str "t.example")] sampleConfig 1
    (fun _ => EndpointResult.status 200) (by decide) (by decide) (by decide)).1.mpr (by decide)

/-- C4 is refuted on the code: for a message of tenant zzz with no route,
the message is indeed left unacknowledged, but no failure outcome is
recorded in the outcome store (ForwardEvent returns the no-route error
before reaching its store write). -/
theorem no_route_failure_not_recorded :
    (processMessage (Json.obj [("domain", Json.str "zzz")]) 1 sampleConfig
        (fun _ => EndpointResult.status 200)).action = ConsumerAction.noAck
    ∧ recordsFailure (processMessage (Json.obj [("domain", Json.str "zzz")]) 1 sampleConfig
        (fun _ => EndpointResult.status 200)) = false := ⟨rfl, rfl⟩

/-- C4 amended: with no endpoints configured for the tenant, ForwardEvent
fails with the no-route error before issuing any HTTP request and the
message is not acknowledged; nothing is inserted into the outcome store,
the miss is only logged. -/
theorem no_route_no_http_no_outcome (fields : List (String × Json)) (cfg : Config)
    (numDelivered : Int) (respond : String → EndpointResult)
    (hdec : structDecodable consumerTags fields = true)
    (hdom : fieldValue fields "domain" ≠ "")
    (hend : GetEndpoints cfg (fieldValue fields "domain") = []) :
    (processMessage (Json.obj fields) numDelivered cfg respond).action = ConsumerAction.noAck
    ∧ (processMessage (Json.obj fields) numDelivered cfg respond).outcome.map ForwardOutcome.requests = some []
    ∧ (processMessage (Json.obj fields) numDelivered cfg respond).outcome.map ForwardOutcome.result
        = some (some ("no endpoints configured for domain: " ++ fieldValue fields "domain"))
    ∧ (processMessage (Json.obj fields) numDelivered cfg respond).outcome.map ForwardOutcome.storeOps = some [] := by
  simp only [processMessage, ForwardEvent, hdec, if_true, hdom, if_neg hdom, hend, if_pos hend]
  exact ⟨rfl, rfl, rfl, rfl⟩

theorem no_route_no_http_no_outcome_witness :
    (processMessage (Json.obj [("domain", Json.str "zzz")]) 2 sampleConfig
        (fun _ => EndpointResult.status 200)).outcome.map ForwardOutcome.requests = some [] :=
  (no_route_no_http_no_outcome [("domain", Json.str "zzz")] sampleConfig 2
    (fun _ => EndpointResult.status 200) (by decide) (by decide) (by decide)).2.1

/-- C8: POST /events answers 400 Invalid JSON payload when the body does
not decode into the event struct, 400 domain is required when the decoded
event lacks a non-empty domain, 500 when the publish fails, and otherwise
202 with the accepted body, publishing the re-marshalled event. -/
theorem handle_events_status_contract (j : Json) (e : Event) (pub : Bool) :
    ((HandleEvents "POST" none pub).1 = { status := 400, body := "Invalid JSON payload" })
    ∧ (decodeEvent j = none →
        (HandleEvents "POST" (some j) pub).1 = { status := 400, body := "Invalid JSON payload" })
    ∧ (decodeEvent j = some e → e.domain = "" →
        (HandleEvents "POST" (some j) pub).1 = { status := 400, body := "domain is required" })
    ∧ (decodeEvent j = some e → e.domain ≠ "" →
        (HandleEvents "POST" (some j) false).1 = { status := 500, body := "Internal server error" })
    ∧ (decodeEvent j = some e → e.domain ≠ "" →
        (HandleEvents "POST" (some j) true) = ({ status := 202, body := acceptedBody }, some (marshalEvent e))) := by
  refine ⟨rfl, ?_, ?_, ?_, ?_⟩
  · intro hd
    simp [HandleEvents, hd]
  · intro hd hdom
    simp [HandleEvents, hd, hdom]
  · intro hd hdom
    simp [HandleEvents, hd, hdom]
  · intro hd hdom
    simp [HandleEvents, hd, hdom]

theorem handle_events_status_contract_witness :
    (HandleEvents "POST" (some (Json.obj [("domain", Json.str "t.example")])) true).1
      = { status := 202, body := acceptedBody } := by
  have h := (handle_events_status_contract (Json.obj [("domain", Json.str "t.example")])
    { emptyEvent with domain := "t.example" } true).2.2.2.2 rfl (by decide)
  rw [h]

/-- C3 is contradicted by the code: the handler decodes POST bodies into
the fixed Event struct, so an unknown PBX-specific field of an accepted
request is dropped: at this input the request is accepted with 202 but the
published object no longer holds the pbx_custom field the producer sent. -/
theorem unknown_field_dropped_on_publish :
    ((HandleEvents "POST" (some (Json.obj [("domain", Json.str "t.example"), ("call_id", Json.str "c1"), ("pbx_custom", Json.str "x")])) true).1.status = 202)
    ∧ ((HandleEvents "POST" (some (Json.obj [("domain", Json.str "t.example"), ("call_id", Json.str "c1"), ("pbx_custom", Json.str "x")])) true).2.map (fun p => lookupField p "pbx_custom")) = some none := ⟨rfl, rfl⟩

/-- C10: the tenant key is accepted under any letter casing because struct
decoding matches keys case-insensitively, and the re-serialized published
object carries the tenant value under the lower-case domain key, its keys
being exactly the 19 struct tags, so no capitalized variant survives. -/
theorem domain_key_case_insensitive (k v : String)
    (hk : lowerName k = "domain") (hv : v ≠ "") :
    (HandleEvents "POST" (some (Json.obj [(k, Json.str v)])) true).1
        = { status := 202, body := acceptedBody }
    ∧ ((HandleEvents "POST" (some (Json.obj [(k, Json.str v)])) true).2.map
        (fun p => lookupField p "domain")) = some (some (Json.str v))
    ∧ ((HandleEvents "POST" (some (Json.obj [(k, Json.str v)])) true).2.map
        (fun p => p.map Prod.fst)) = some eventTags := by
  have hdec : decodeEvent (Json.obj [(k, Json.str v)]) = some { emptyEvent with domain := v } := by
    simp [decodeEvent, structDecodable, fieldValue, eventTags, hk, emptyEvent]
  refine ⟨?_, ?_, ?_⟩
  · simp [HandleEvents, hdec, hv]
  · simp [HandleEvents, hdec, hv, marshalEvent, lookupField, emptyEvent]
  · simp [HandleEvents, hdec, hv, marshalEvent, eventTags, emptyEvent]

theorem domain_key_case_insensitive_witness :
    lowerName "DOMAIN" = "domain"
    ∧ (HandleEvents "POST" (some (Json.obj [("DOMAIN", Json.str "t.example")])) true).1
        = { status := 202, body := acceptedBody } :=
  ⟨by decide, (domain_key_case_insensitive "DOMAIN" "t.example" (by decide) (by decide)).1⟩

end CallEventHub
